import Mathlib

/-!
Shallow embedding of the BOT_GPT conversational backend (src/) and proofs
about its context-window assembly, RAG retrieval, ingestion and turn logic.

Pure Python functions become Lean functions; the relational store and the
Chroma vector index become explicit state values threaded through the
operations; external collaborators (the language model, the embedding model,
the text splitter, PDF page extraction, timestamps) become oracle parameters
supplied by the environment.
-/

namespace BotGpt

/-! ### Configuration (src/config.py) -/

/-- `Settings.max_context_tokens`. -/
def max_context_tokens : Nat := 8000

/-- `Settings.max_response_tokens`. -/
def max_response_tokens : Nat := 512

/-- `Settings.top_k_chunks`. -/
def top_k_chunks : Nat := 5

/-- `Settings.similarity_threshold` (0.7). Real-valued scores are modelled
as rationals. -/
def similarity_threshold : ℚ := 7/10

/-! ### Token estimation (src/services/llm_service.py, `count_tokens`) -/

/-- `LLMService.count_tokens`: `len(text) // 4`. -/
def count_tokens (text : String) : Nat := text.length / 4

/-! ### Data model (src/models/models.py) -/

/-- Metadata attached to an assistant message produced via retrieval
(`assistant_message.set_metadata` in `ConversationService`). `none` models
the default `extra_data = "\x7b\x7d"`. -/
structure AssistantMeta where
  rag_chunks_used : Nat
  rag_similarity_scores : List ℚ
  deriving DecidableEq, Repr

/-- A `messages` row. `sequence_number` and `tokens` are the Integer
columns; timestamps are ISO strings as in the source. -/
structure Message where
  conversation_id : String
  role : String
  content : String
  tokens : Nat
  created_at : String
  sequence_number : Nat
  extra_data : Option AssistantMeta := none
  deriving DecidableEq, Repr

/-- A `conversations` row. `document_ids` is stored JSON-encoded in the
source; the model keeps the decoded list (`get_document_ids`). -/
structure Conversation where
  id : String
  user_id : String
  title : String
  mode : String
  document_ids : List String
  total_tokens : Nat
  updated_at : String
  deriving DecidableEq, Repr

/-- A `documents` row (the fields ingestion touches). -/
structure Document where
  id : String
  user_id : String
  filename : String
  chunk_count : Nat
  created_at : String
  deriving DecidableEq, Repr

/-! ### Context window (src/services/llm_service.py, `get_context_window`) -/

/-- The loop of `LLMService.get_context_window`: walk the reversed history
(most recent first) accumulating `token_count`, and `break` as soon as the
next message would push the total over `max_tokens`. Returns the accepted
messages in scan order (most recent first). -/
def select_within_budget (max_tokens : Nat) : List Message → Nat → List Message
  | [], _ => []
  | m :: rest, token_count =>
    if max_tokens < token_count + m.tokens then []
    else m :: select_within_budget max_tokens rest (token_count + m.tokens)

/-- `LLMService.get_context_window`: scan `reversed(messages)`, prepending
each accepted message (`selected_messages.insert(0, msg)`), which yields the
reverse of the scan-order selection. -/
def get_context_window (messages : List Message) (max_tokens : Nat) : List Message :=
  (select_within_budget max_tokens messages.reverse 0).reverse

/-- Cumulative estimated token count of a message list. -/
def sum_tokens (l : List Message) : Nat := (l.map Message.tokens).sum

/-! ### RAG retrieval (src/services/document_service.py, `retrieve_relevant_chunks`) -/

/-- Metadata stored with each chunk in the Chroma collection (built in
`DocumentService.process_document`). -/
structure ChunkMeta where
  document_id : String
  chunk_index : Nat
  document_title : String
  created_at : String
  deriving DecidableEq, Repr

/-- A formatted retrieval result, one element of `retrieved_chunks`. -/
structure RetrievedChunk where
  content : String
  metadata : ChunkMeta
  similarity_score : ℚ
  rank : Nat
  deriving DecidableEq, Repr

/-- The result-formatting loop of `DocumentService.retrieve_relevant_chunks`:
`for i, (doc, metadata, distance) in enumerate(zip(...))` over the raw index
results, computing `similarity = 1 - distance` and appending a result exactly
when `similarity >= settings.similarity_threshold`, with `rank = i + 1` taken
from the enumeration index `i` over the raw (unfiltered) results. -/
def retrieve_format_go (threshold : ℚ) :
    List (String × ChunkMeta × ℚ) → Nat → List RetrievedChunk
  | [], _ => []
  | (doc, meta, distance) :: rest, i =>
    if threshold ≤ 1 - distance then
      { content := doc, metadata := meta, similarity_score := 1 - distance, rank := i + 1 } ::
        retrieve_format_go threshold rest (i + 1)
    else
      retrieve_format_go threshold rest (i + 1)

/-- Formatting of one raw vector-index result list (documents, metadatas and
cosine distances, zipped in index order) by `retrieve_relevant_chunks`. The
similarity threshold is read from `settings.similarity_threshold` in the
source and is an explicit argument here. -/
def retrieve_format (results : List (String × ChunkMeta × ℚ)) (threshold : ℚ) :
    List RetrievedChunk :=
  retrieve_format_go threshold results 0

/-! ### Vector index model (the Chroma collection `all_documents`) -/

/-- One stored chunk record of the Chroma collection: its id, text and
metadata (embeddings live in the external index and are not observable by
the claims). -/
structure ChunkEntry where
  id : String
  text : String
  meta : ChunkMeta
  deriving DecidableEq, Repr

/-- The `where` filter built by `retrieve_relevant_chunks`: `None` when
`document_ids` is falsy (empty), otherwise a `document_id $in` filter over
the given list. -/
def build_where_filter (document_ids : List String) : Option (List String) :=
  if document_ids = [] then none else some document_ids

/-- Chroma `where`-filter semantics: no filter matches everything; an `$in`
filter matches chunks whose `document_id` metadata is in the list. -/
def chunk_matches_filter : Option (List String) → ChunkEntry → Bool
  | none, _ => true
  | some ids, c => ids.contains c.meta.document_id

/-- The candidate scope that `collection.query` searches: every stored chunk
passing the where filter built from `document_ids`. -/
def query_candidates (index : List ChunkEntry) (document_ids : List String) :
    List ChunkEntry :=
  index.filter (chunk_matches_filter (build_where_filter document_ids))

/-- `DocumentService.delete_document_chunks`: `collection.get` the ids of all
chunks whose metadata references `document_id`, then, when that id list is
non-empty, `collection.delete` exactly those ids. -/
def delete_document_chunks (index : List ChunkEntry) (document_id : String) :
    List ChunkEntry :=
  let ids := (index.filter (fun c => c.meta.document_id == document_id)).map ChunkEntry.id
  if ids = [] then index
  else index.filter (fun c => !ids.contains c.id)

/-! ### Document ingestion (src/services/document_service.py and src/api/routes.py) -/

/-- One page's contribution to the extracted text: skipped when the page
yields no text, otherwise prefixed with its 1-based page banner. -/
def page_piece (p : Nat × String) : String :=
  if p.2 = "" then "" else "\n--- Page " ++ toString (p.1 + 1) ++ " ---\n" ++ p.2

/-- The text accumulated by the extraction loop of
`DocumentService.extract_text_from_pdf`, with the external PDF reader
modelled as the list of page texts it yields. -/
def pages_text (pages : List String) : String :=
  String.join (pages.enum.map page_piece)

/-- Python's `not text.strip()` test: a string strips to empty exactly when
every character is whitespace. -/
def is_blank (s : String) : Bool := s.data.all (fun c => c.isWhitespace)

/-- `DocumentService.extract_text_from_pdf`: fails when the accumulated text
is all whitespace (`if not text.strip()`). -/
def extract_text_from_pdf (pages : List String) : Except String String :=
  let text := pages_text pages
  if is_blank text then Except.error "No text could be extracted from PDF"
  else Except.ok text

/-- The chunk records prepared by `process_document`: ids
`f"\x7bdocument.id\x7d_chunk_\x7bi\x7d"` with per-chunk metadata. -/
def chunk_entries (document : Document) (chunks : List String) : List ChunkEntry :=
  chunks.enum.map fun p =>
    { id := document.id ++ "_chunk_" ++ toString p.1,
      text := p.2,
      meta := { document_id := document.id, chunk_index := p.1,
                document_title := document.filename, created_at := document.created_at } }

/-- `DocumentService.process_document`: extract text, split it with the
external `RecursiveCharacterTextSplitter` (oracle `split`), fail on an empty
chunk list, otherwise add all chunk records to the collection and return the
chunk count. -/
def process_document (split : String → List String) (pages : List String)
    (document : Document) (index : List ChunkEntry) :
    Except String (Nat × List ChunkEntry) :=
  match extract_text_from_pdf pages with
  | Except.error e => Except.error e
  | Except.ok text =>
    let chunks := split text
    if chunks = [] then Except.error "No chunks created from document"
    else Except.ok (chunks.length, index ++ chunk_entries document chunks)

/-- The ingestion step of `upload_document` (src/api/routes.py): on success
set `document.chunk_count` to the returned count and commit; on a processing
error roll back the relational write, leaving the document record untouched
(the vector index was not written, the failure paths precede
`collection.add`). Returns the document record, the index and the error, if
any. -/
def upload_process (split : String → List String) (pages : List String)
    (document : Document) (index : List ChunkEntry) :
    Document × List ChunkEntry × Option String :=
  match process_document split pages document index with
  | Except.error e => (document, index, some e)
  | Except.ok (n, index') => ({ document with chunk_count := n }, index', none)

/-! ### Response generation (src/services/llm_service.py, `generate_response`) -/

/-- `DocumentService.format_rag_context`: join source-labelled chunk texts. -/
def format_rag_context (chunks : List RetrievedChunk) : String :=
  if chunks = [] then ""
  else String.intercalate "\n" (chunks.map fun c =>
    "[Source: " ++ c.metadata.document_title ++ "]\n" ++ c.content ++ "\n")

/-- The default system instruction in `LLMService.generate_response`. -/
def default_system_prompt : String :=
  "You are BOT GPT, a helpful AI assistant. Provide direct, concise answers without showing your reasoning process or thinking steps. Never include internal thought processes like \x27Okay, let me think\x27 or \x27I should\x27. Just give the final answer directly."

/-- The stricter documents-only instruction selected when grounding text is
present, with the grounding text appended after the fixed rules (which
mandate the fallback phrase "I don\x27t have that information in the uploaded
documents"). -/
def grounded_system_prompt (rag_context : String) : String :=
  "You are BOT GPT. You MUST answer questions STRICTLY based on the provided document context ONLY.\n\nCRITICAL RULES:\n1. Use ONLY information from the provided context below\n2. DO NOT use your general knowledge or training data\n3. If the answer is not in the context, say \x22I don\x27t have that information in the uploaded documents\x22\n4. Never make assumptions or infer information not explicitly stated in the context\n5. Provide direct answers without showing reasoning\n\nContext from documents:\n" ++ rag_context

/-- One message of the prompt payload sent to the language model (the
LangChain `SystemMessage`/`HumanMessage`/`AIMessage` objects). -/
structure PromptMessage where
  role : String
  content : String
  deriving DecidableEq, Repr

/-- `LLMService.format_messages_for_llm`: optional system instruction first,
then each history message converted by role; messages with an unknown role
are silently dropped. -/
def format_messages_for_llm (messages : List Message) (system_prompt : Option String) :
    List PromptMessage :=
  (match system_prompt with
    | some sp => [{ role := "system", content := sp }]
    | none => []) ++
  messages.filterMap fun m =>
    if m.role = "user" then some { role := "user", content := m.content }
    else if m.role = "assistant" then some { role := "assistant", content := m.content }
    else if m.role = "system" then some { role := "system", content := m.content }
    else none

/-- The structured result of `LLMService.generate_response`. `prompt` records
the payload actually sent to the model (observable through the external model
call). -/
structure LLMResult where
  content : String
  input_tokens : Nat
  output_tokens : Nat
  total_tokens : Nat
  prompt : List PromptMessage
  deriving DecidableEq, Repr

/-- The system instruction `generate_response` ends up using: the caller's
`system_prompt` if given (else the default), overridden by the stricter
grounded instruction when `rag_context` is truthy — Python truthiness, so an
empty string behaves like `None`. -/
def chosen_system_prompt (rag_context : Option String) (system_prompt : Option String) :
    String :=
  let sp := match system_prompt with
    | none => default_system_prompt
    | some s => s
  match rag_context with
  | some r => if r ≠ "" then grounded_system_prompt r else sp
  | none => sp

/-- `LLMService.generate_response`, with the external model call replaced by
the oracle `llm_text` (the text the model returns): select the system
instruction, restrict the history to the context window under
`settings.max_context_tokens`, send it, and total the token estimates. -/
def generate_response (messages : List Message) (rag_context : Option String)
    (system_prompt : Option String) (llm_text : String) : LLMResult :=
  let sp := chosen_system_prompt rag_context system_prompt
  let context_messages := get_context_window messages max_context_tokens
  let input_tokens := sum_tokens context_messages
  let output_tokens := count_tokens llm_text
  { content := llm_text, input_tokens := input_tokens, output_tokens := output_tokens,
    total_tokens := input_tokens + output_tokens,
    prompt := format_messages_for_llm context_messages (some sp) }

/-! ### Conversation turns (src/services/conversation_service.py) -/

/-- The relational store visible to `ConversationService`: the conversation
rows and the message rows, the latter in insertion order. -/
structure DBState where
  conversations : List Conversation
  messages : List Message
  deriving DecidableEq, Repr

/-- `ConversationService.get_conversation`: filter by id, take the first. -/
def get_conversation (st : DBState) (conversation_id : String) : Option Conversation :=
  st.conversations.find? (fun c => c.id == conversation_id)

/-- `ConversationService.get_messages`: the conversation's messages ordered
by `sequence_number`. -/
def get_messages (st : DBState) (conversation_id : String) : List Message :=
  (st.messages.filter (fun m => m.conversation_id == conversation_id)).mergeSort
    (fun a b => a.sequence_number ≤ b.sequence_number)

/-- `ConversationService.get_next_sequence_number`: order the conversation's
messages by `sequence_number` descending and take the first — the maximum —
plus one, or `0` when the conversation has no messages. -/
def get_next_sequence_number (st : DBState) (conversation_id : String) : Nat :=
  match ((st.messages.filter (fun m => m.conversation_id == conversation_id)).map
      Message.sequence_number).max? with
  | none => 0
  | some n => n + 1

/-- External effects observed during one turn, supplied by the environment:
the chunks the vector index returns when retrieval is invoked, the text the
language model returns, and the timestamp the store assigns to new rows. -/
structure TurnEnv where
  retrieved : List RetrievedChunk
  llm_text : String
  now : String
  deriving DecidableEq, Repr

/-- The dictionary returned by `add_message_and_get_response`, plus the ghost
flag `retrieval_invoked` recording whether `retrieve_relevant_chunks` was
called during the turn. -/
structure TurnResult where
  user_message : Message
  assistant_message : Message
  conversation : Conversation
  retrieved_context : Option (List RetrievedChunk)
  retrieval_invoked : Bool
  deriving DecidableEq, Repr

/-- The body of `ConversationService.add_message_and_get_response` after the
existence check: persist the user message with the next sequence number,
invoke retrieval exactly when the conversation is grounded with a non-empty
document set, generate the response over the history plus the new user
message, persist the assistant message (with retrieval metadata exactly when
chunks were retrieved), and update the conversation's totals and timestamp. -/
def run_turn (st : DBState) (env : TurnEnv)
    (conversation_id user_message_content : String) (conversation : Conversation) :
    DBState × TurnResult :=
  let user_seq := get_next_sequence_number st conversation_id
  let assistant_seq := user_seq + 1
  let user_tokens := count_tokens user_message_content
  let user_message : Message :=
    { conversation_id := conversation_id, role := "user",
      content := user_message_content, tokens := user_tokens,
      created_at := env.now, sequence_number := user_seq }
  let retrieval_invoked := conversation.mode == "grounded" && !conversation.document_ids.isEmpty
  let retrieved_context := if retrieval_invoked then env.retrieved else []
  let rag_context_str :=
    if retrieved_context ≠ [] then some (format_rag_context retrieved_context) else none
  let all_messages := get_messages st conversation_id ++ [user_message]
  let llm_response := generate_response all_messages rag_context_str none env.llm_text
  let assistant_message : Message :=
    { conversation_id := conversation_id, role := "assistant",
      content := llm_response.content, tokens := llm_response.output_tokens,
      created_at := env.now, sequence_number := assistant_seq,
      extra_data := if retrieved_context ≠ [] then
          some { rag_chunks_used := retrieved_context.length,
                 rag_similarity_scores := retrieved_context.map RetrievedChunk.similarity_score }
        else none }
  let conversation' : Conversation :=
    { conversation with
      total_tokens := conversation.total_tokens + user_tokens + llm_response.output_tokens,
      updated_at := user_message.created_at }
  let st' : DBState :=
    { conversations :=
        st.conversations.map (fun c => if c.id == conversation_id then conversation' else c),
      messages := st.messages ++ [user_message, assistant_message] }
  (st', { user_message := user_message, assistant_message := assistant_message,
          conversation := conversation',
          retrieved_context :=
            if conversation.mode == "grounded" then some retrieved_context else none,
          retrieval_invoked := retrieval_invoked })

/-- `ConversationService.add_message_and_get_response`: fail with
"Conversation not found" before creating any state when the conversation does
not exist, otherwise run the turn. -/
def add_message_and_get_response (st : DBState) (env : TurnEnv)
    (conversation_id user_message_content : String) :
    Except String (DBState × TurnResult) :=
  match get_conversation st conversation_id with
  | none => Except.error "Conversation not found"
  | some conversation =>
    Except.ok (run_turn st env conversation_id user_message_content conversation)

/-! ### Concrete fixtures used by witnesses and counterexamples -/

/-- A sample message used by concrete witnesses: 1000 estimated tokens. -/
def exMsg : Message :=
  { conversation_id := "c1", role := "user", content := "x", tokens := 1000,
    created_at := "2024-01-01T00:00:00", sequence_number := 0 }

/-- Sample chunk metadata. -/
def exMeta : ChunkMeta :=
  { document_id := "d1", chunk_index := 0, document_title := "x.pdf",
    created_at := "2024-01-01T00:00:00" }

/-- Raw vector-index results realizing the spec scenario: cosine distances
0.1, 0.5, 0.9. -/
def exResults : List (String × ChunkMeta × ℚ) :=
  [("a", exMeta, 1/10), ("b", exMeta, 5/10), ("c", exMeta, 9/10)]

/-- Raw vector-index results with tied distances (two chunks at distance
0.1), still in ascending distance order. -/
def tieResults : List (String × ChunkMeta × ℚ) :=
  [("a", exMeta, 1/10), ("b", exMeta, 1/10)]

/-- An open-chat conversation fixture. -/
def conv0 : Conversation :=
  { id := "c1", user_id := "u1", title := "chat", mode := "open_chat",
    document_ids := [], total_tokens := 0, updated_at := "2024-01-01T00:00:00" }

/-- A grounded conversation fixture with one associated document. -/
def convG : Conversation :=
  { id := "c2", user_id := "u1", title := "docs", mode := "grounded",
    document_ids := ["d1"], total_tokens := 0, updated_at := "2024-01-01T00:00:00" }

/-- A store holding the two conversation fixtures and no messages. -/
def st0 : DBState := { conversations := [conv0, convG], messages := [] }

/-- A turn environment with no retrieved chunks. -/
def env0 : TurnEnv :=
  { retrieved := [], llm_text := "Hi there!", now := "2024-01-02T00:00:00" }

/-- A retrieved chunk fixture. -/
def rc0 : RetrievedChunk :=
  { content := "chunk text", metadata := exMeta, similarity_score := 9/10, rank := 1 }

/-- A turn environment in which retrieval returns one chunk. -/
def envR : TurnEnv :=
  { retrieved := [rc0], llm_text := "Grounded answer.", now := "2024-01-02T00:00:00" }

/-- Two stored chunk records belonging to different documents. -/
def ce1 : ChunkEntry :=
  { id := "d1_chunk_0", text := "alpha", meta := exMeta }

/-- A chunk record of a second document. -/
def ce2 : ChunkEntry :=
  { id := "d2_chunk_0", text := "beta",
    meta := { document_id := "d2", chunk_index := 0, document_title := "y.pdf",
              created_at := "2024-01-01T00:00:00" } }

/-- A document fixture with no chunk count set. -/
def exDoc : Document :=
  { id := "doc1", user_id := "u1", filename := "x.pdf", chunk_count := 0,
    created_at := "2024-01-01T00:00:00" }

/-- A splitter oracle fixture that keeps the whole text as one chunk. -/
def split_whole : String → List String := fun text => [text]

/-! ## Theorems -/

/-! ### Context-window lemmas -/

theorem sum_tokens_nil : sum_tokens [] = 0 := rfl

theorem sum_tokens_cons (m : Message) (l : List Message) :
    sum_tokens (m :: l) = m.tokens + sum_tokens l := by
  simp [sum_tokens]

theorem sum_tokens_reverse (l : List Message) : sum_tokens l.reverse = sum_tokens l := by
  simp [sum_tokens, List.sum_reverse]

/-- The selection loop returns a prefix of its input. -/
theorem select_within_budget_prefix_of (B : Nat) :
    ∀ (xs : List Message) (c : Nat), select_within_budget B xs c <+: xs := by
  intro xs
  induction xs with
  | nil => intro c; simp [select_within_budget]
  | cons m rest ih =>
    intro c
    unfold select_within_budget
    split
    · exact List.nil_prefix
    · rcases ih (c + m.tokens) with ⟨t, ht⟩
      exact ⟨t, by rw [List.cons_append, ht]⟩

/-- The selection loop never exceeds the budget: starting from a running
total `c ≤ B`, the selected messages keep the total within `B`. -/
theorem select_within_budget_le (B : Nat) :
    ∀ (xs : List Message) (c : Nat), c ≤ B →
      c + sum_tokens (select_within_budget B xs c) ≤ B := by
  intro xs
  induction xs with
  | nil => intro c hc; simpa [select_within_budget, sum_tokens] using hc
  | cons m rest ih =>
    intro c hc
    unfold select_within_budget
    split
    · simpa [sum_tokens] using hc
    · rename_i hle
      have hle' : c + m.tokens ≤ B := Nat.le_of_not_lt hle
      have := ih (c + m.tokens) hle'
      rw [sum_tokens_cons]
      omega

/-- Maximality of the selection loop: any prefix of the input whose tokens
fit in the remaining budget is no longer than the selected prefix. -/
theorem select_within_budget_longest (B : Nat) :
    ∀ (xs p : List Message) (c : Nat), p <+: xs → c + sum_tokens p ≤ B →
      p.length ≤ (select_within_budget B xs c).length := by
  intro xs
  induction xs with
  | nil =>
    intro p c hp _
    have : p = [] := List.prefix_nil.mp hp
    simp [this]
  | cons m rest ih =>
    intro p c hp hsum
    cases p with
    | nil => simp
    | cons a p' =>
      rcases List.cons_prefix_cons.mp hp with ⟨rfl, hp'⟩
      rw [sum_tokens_cons] at hsum
      unfold select_within_budget
      split
      · rename_i hlt
        omega
      · have := ih p' (c + a.tokens) hp' (by omega)
        simpa using this

/-- The context window is a suffix of the history. -/
theorem get_context_window_suffix (messages : List Message) (B : Nat) :
    get_context_window messages B <:+ messages := by
  have h := select_within_budget_prefix_of B messages.reverse 0
  have h2 := List.reverse_suffix.mpr h
  simpa [get_context_window] using h2

/-- C1: `get_context_window` returns the longest contiguous suffix of the
history whose cumulative token count does not exceed the budget, in
chronological order; when the single most recent message alone exceeds the
budget the result is empty. -/
theorem get_context_window_longest_suffix (messages : List Message) (B : Nat) :
    get_context_window messages B <:+ messages ∧
    sum_tokens (get_context_window messages B) ≤ B ∧
    (∀ t : List Message, t <:+ messages → sum_tokens t ≤ B →
      t.length ≤ (get_context_window messages B).length) ∧
    (∀ (ms : List Message) (m : Message), messages = ms ++ [m] → B < m.tokens →
      get_context_window messages B = []) := by
  refine ⟨?_, ?_, ?_, ?_⟩
  · exact get_context_window_suffix messages B
  · have h := select_within_budget_le B messages.reverse 0 (Nat.zero_le B)
    simpa [get_context_window, sum_tokens_reverse] using h
  · intro t ht hsum
    have hp : t.reverse <+: messages.reverse := List.reverse_prefix.mpr ht
    have h := select_within_budget_longest B messages.reverse t.reverse 0 hp
      (by simpa [sum_tokens_reverse] using hsum)
    simpa [get_context_window] using h
  · intro ms m hmsg hlt
    subst hmsg
    have hrev : (ms ++ [m]).reverse = m :: ms.reverse := by simp
    rw [get_context_window, hrev]
    unfold select_within_budget
    rw [if_pos (by omega)]
    rfl

/-- Witness for C1, instantiating the spec scenario: ten messages of 1000
tokens each with budget 3500 keep the last three (the kept suffix is within
budget and no shorter than three). -/
theorem get_context_window_longest_suffix_witness :
    sum_tokens (get_context_window (List.replicate 10 exMsg) 3500) ≤ 3500 ∧
    3 ≤ (get_context_window (List.replicate 10 exMsg) 3500).length := by
  refine ⟨(get_context_window_longest_suffix (List.replicate 10 exMsg) 3500).2.1, ?_⟩
  have h := (get_context_window_longest_suffix (List.replicate 10 exMsg) 3500).2.2.1
    (List.replicate 3 exMsg) ⟨List.replicate 7 exMsg, by decide⟩ (by decide)
  simpa using h

/-! ### Retrieval lemmas -/

theorem retrieve_format_go_mem_threshold (threshold : ℚ) :
    ∀ (xs : List (String × ChunkMeta × ℚ)) (i : Nat),
      ∀ c ∈ retrieve_format_go threshold xs i, threshold ≤ c.similarity_score := by
  intro xs
  induction xs with
  | nil => intro i c hc; simp [retrieve_format_go] at hc
  | cons t rest ih =>
    obtain ⟨doc, meta, distance⟩ := t
    intro i c hc
    unfold retrieve_format_go at hc
    by_cases h : threshold ≤ 1 - distance
    · rw [if_pos h] at hc
      rcases List.mem_cons.mp hc with hc | hc
      · subst hc; exact h
      · exact ih (i + 1) c hc
    · rw [if_neg h] at hc
      exact ih (i + 1) c hc

/-- Every formatted result's similarity is `1 - d` for some raw distance `d`
occurring in the result list. -/
theorem retrieve_format_go_mem_distance (threshold : ℚ) :
    ∀ (xs : List (String × ChunkMeta × ℚ)) (i : Nat),
      ∀ c ∈ retrieve_format_go threshold xs i,
        ∃ t ∈ xs, c.similarity_score = 1 - t.2.2 := by
  intro xs
  induction xs with
  | nil => intro i c hc; simp [retrieve_format_go] at hc
  | cons t rest ih =>
    obtain ⟨doc, meta, distance⟩ := t
    intro i c hc
    unfold retrieve_format_go at hc
    by_cases h : threshold ≤ 1 - distance
    · rw [if_pos h] at hc
      rcases List.mem_cons.mp hc with hc | hc
      · exact ⟨(doc, meta, distance), List.mem_cons_self .., by rw [hc]⟩
      · rcases ih (i + 1) c hc with ⟨t, ht, he⟩
        exact ⟨t, List.mem_cons_of_mem _ ht, he⟩
    · rw [if_neg h] at hc
      rcases ih (i + 1) c hc with ⟨t, ht, he⟩
      exact ⟨t, List.mem_cons_of_mem _ ht, he⟩

/-- If every raw result fails the threshold the formatted list is empty. -/
theorem retrieve_format_go_nil (threshold : ℚ) :
    ∀ (xs : List (String × ChunkMeta × ℚ)) (i : Nat),
      (∀ t ∈ xs, 1 - t.2.2 < threshold) → retrieve_format_go threshold xs i = [] := by
  intro xs
  induction xs with
  | nil => intro i _; rfl
  | cons t rest ih =>
    obtain ⟨doc, meta, distance⟩ := t
    intro i hall
    unfold retrieve_format_go
    rw [if_neg (not_le.mpr (hall _ (List.mem_cons_self ..)))]
    exact ih (i + 1) fun t ht => hall t (List.mem_cons_of_mem _ ht)

/-- With distance-ascending raw results the surviving ranks are consecutive,
starting at `i + 1`. -/
theorem retrieve_format_go_ranks (threshold : ℚ) :
    ∀ (xs : List (String × ChunkMeta × ℚ)) (i : Nat),
      List.Sorted (· ≤ ·) (xs.map (fun t => t.2.2)) →
        (retrieve_format_go threshold xs i).map RetrievedChunk.rank =
          List.range' (i + 1) (retrieve_format_go threshold xs i).length := by
  intro xs
  induction xs with
  | nil => intro i _; rfl
  | cons t rest ih =>
    obtain ⟨doc, meta, distance⟩ := t
    intro i hsorted
    rw [List.map_cons, List.sorted_cons] at hsorted
    obtain ⟨hall, hsorted'⟩ := hsorted
    unfold retrieve_format_go
    by_cases h : threshold ≤ 1 - distance
    · rw [if_pos h]
      rw [List.map_cons, ih (i + 1) hsorted', List.length_cons, List.range'_succ]
    · rw [if_neg h]
      have hempty : retrieve_format_go threshold rest (i + 1) = [] := by
        refine retrieve_format_go_nil threshold rest (i + 1) fun t ht => ?_
        have hd : distance ≤ t.2.2 := hall _ (List.mem_map_of_mem _ ht)
        have : 1 - t.2.2 ≤ 1 - distance := by linarith
        exact lt_of_le_of_lt this (not_le.mp h)
      rw [hempty]
      rfl

/-- With distance-ascending raw results the formatted list is weakly
similarity-descending. -/
theorem retrieve_format_go_descending (threshold : ℚ) :
    ∀ (xs : List (String × ChunkMeta × ℚ)) (i : Nat),
      List.Sorted (· ≤ ·) (xs.map (fun t => t.2.2)) →
        List.Sorted (fun a b => b.similarity_score ≤ a.similarity_score)
          (retrieve_format_go threshold xs i) := by
  intro xs
  induction xs with
  | nil => intro i _; simp [retrieve_format_go]
  | cons t rest ih =>
    obtain ⟨doc, meta, distance⟩ := t
    intro i hsorted
    rw [List.map_cons, List.sorted_cons] at hsorted
    obtain ⟨hall, hsorted'⟩ := hsorted
    unfold retrieve_format_go
    by_cases h : threshold ≤ 1 - distance
    · rw [if_pos h]
      rw [List.sorted_cons]
      refine ⟨fun b hb => ?_, ih (i + 1) hsorted'⟩
      rcases retrieve_format_go_mem_distance threshold rest (i + 1) b hb with ⟨t, ht, he⟩
      have hd : distance ≤ t.2.2 := hall _ (List.mem_map_of_mem _ ht)
      rw [he]
      simpa using by linarith
    · rw [if_neg h]
      exact ih (i + 1) hsorted'

/-- Counterexample to C2 as stated: the vector index may return two chunks
at the same cosine distance (here both at 0.1, an ascending-distance result
list); both clear the threshold with equal similarity, so the returned
sequence is not strictly similarity-descending. -/
theorem retrieve_format_tie_not_strict :
    List.Sorted (· ≤ ·) (tieResults.map (fun t => t.2.2)) ∧
    ¬ List.Sorted (fun a b => b.similarity_score < a.similarity_score)
        (retrieve_format tieResults similarity_threshold) := by
  constructor
  · norm_num [tieResults, exMeta, List.sorted_cons]
  · have h1 : similarity_threshold ≤ 1 - 1/10 := by norm_num [similarity_threshold]
    simp only [retrieve_format, tieResults, retrieve_format_go, if_pos h1]
    simp [List.sorted_cons]

/-- C2 (amended): for every distance-ascending result list returned by the
vector index, every chunk `retrieve_relevant_chunks` keeps has similarity
`1 - distance` at or above the threshold, the returned sequence is weakly
similarity-descending (strictness can fail on tied distances), and the rank
values are exactly 1..N with no gaps. -/
theorem retrieve_relevant_chunks_filter_ranked (results : List (String × ChunkMeta × ℚ))
    (threshold : ℚ)
    (hsorted : List.Sorted (· ≤ ·) (results.map (fun t => t.2.2))) :
    (∀ c ∈ retrieve_format results threshold, threshold ≤ c.similarity_score) ∧
    List.Sorted (fun a b => b.similarity_score ≤ a.similarity_score)
      (retrieve_format results threshold) ∧
    (retrieve_format results threshold).map RetrievedChunk.rank =
      List.range' 1 (retrieve_format results threshold).length :=
  ⟨retrieve_format_go_mem_threshold threshold results 0,
    retrieve_format_go_descending threshold results 0 hsorted,
    retrieve_format_go_ranks threshold results 0 hsorted⟩

/-- Witness for C2 on the spec scenario (distances 0.1, 0.5, 0.9 at
threshold 0.7): the filter and rank properties hold on that concrete result
list. -/
theorem retrieve_relevant_chunks_filter_ranked_witness :
    (∀ c ∈ retrieve_format exResults similarity_threshold,
      similarity_threshold ≤ c.similarity_score) ∧
    (retrieve_format exResults similarity_threshold).map RetrievedChunk.rank =
      List.range' 1 (retrieve_format exResults similarity_threshold).length := by
  have hs : List.Sorted (· ≤ ·) (exResults.map (fun t => t.2.2)) := by
    norm_num [exResults, exMeta, List.sorted_cons]
  exact ⟨(retrieve_relevant_chunks_filter_ranked exResults similarity_threshold hs).1,
    (retrieve_relevant_chunks_filter_ranked exResults similarity_threshold hs).2.2⟩

/-! ### Query scope (C10) -/

/-- C10: with an empty `document_ids` list no where filter is built and the
query's candidate scope is the whole index, so chunks of any document may be
returned; the document-set restriction applies exactly when the list is
non-empty. -/
theorem query_scope_empty_document_ids (index : List ChunkEntry)
    (document_ids : List String) :
    build_where_filter [] = none ∧
    query_candidates index [] = index ∧
    (document_ids ≠ [] →
      query_candidates index document_ids =
        index.filter (fun c => document_ids.contains c.meta.document_id)) := by
  refine ⟨rfl, ?_, ?_⟩
  · simp [query_candidates, build_where_filter, chunk_matches_filter]
  · intro h
    unfold query_candidates build_where_filter
    rw [if_neg h]
    rfl

/-- Witness for C10: with the scope empty the whole two-document index is
searched; with scope `["d1"]` only document d1's chunk remains in scope. -/
theorem query_scope_empty_document_ids_witness :
    query_candidates [ce1, ce2] [] = [ce1, ce2] ∧
    query_candidates [ce1, ce2] ["d1"] = [ce1] := by
  refine ⟨(query_scope_empty_document_ids [ce1, ce2] ["d1"]).2.1, ?_⟩
  rw [(query_scope_empty_document_ids [ce1, ce2] ["d1"]).2.2 (by decide)]
  decide

/-! ### Chunk deletion (C7) -/

/-- C7: under the collection's unique-id invariant,
`delete_document_chunks` removes exactly the chunks whose metadata
references the given document id: the result is the index restricted to the
other documents, every chunk of the given document is gone and every chunk
of any other document is retained. -/
theorem delete_document_chunks_exact (index : List ChunkEntry) (document_id : String)
    (hid : (index.map ChunkEntry.id).Nodup) :
    delete_document_chunks index document_id =
      index.filter (fun c => !(c.meta.document_id == document_id)) ∧
    (∀ c ∈ index, c.meta.document_id = document_id →
      c ∉ delete_document_chunks index document_id) ∧
    (∀ c ∈ index, c.meta.document_id ≠ document_id →
      c ∈ delete_document_chunks index document_id) := by
  have key : ∀ c ∈ index,
      ((index.filter (fun c => c.meta.document_id == document_id)).map
        ChunkEntry.id).contains c.id = (c.meta.document_id == document_id) := by
    intro c hc
    rw [Bool.eq_iff_iff]
    constructor
    · intro hcont
      have hmem : c.id ∈ (index.filter
          (fun c => c.meta.document_id == document_id)).map ChunkEntry.id := by
        simpa using hcont
      rcases List.mem_map.mp hmem with ⟨c2, hc2, hcid⟩
      rcases List.mem_filter.mp hc2 with ⟨hc2mem, hc2p⟩
      have hcc : c = c2 := List.inj_on_of_nodup_map hid hc hc2mem hcid.symm
      rw [hcc]
      exact hc2p
    · intro hpc
      have hmem : c.id ∈ (index.filter
          (fun c => c.meta.document_id == document_id)).map ChunkEntry.id :=
        List.mem_map_of_mem _ (List.mem_filter.mpr ⟨hc, hpc⟩)
      simpa using hmem
  have heq : delete_document_chunks index document_id =
      index.filter (fun c => !(c.meta.document_id == document_id)) := by
    unfold delete_document_chunks
    by_cases hnil : (index.filter
        (fun c => c.meta.document_id == document_id)).map ChunkEntry.id = []
    · rw [if_pos hnil]
      have hfil : index.filter (fun c => c.meta.document_id == document_id) = [] :=
        List.map_eq_nil_iff.mp hnil
      have hall := List.filter_eq_nil_iff.mp hfil
      exact (List.filter_eq_self.mpr fun c hc => by
        simpa using (hall c hc)).symm
    · rw [if_neg hnil]
      refine List.filter_congr fun c hc => ?_
      rw [key c hc]
  refine ⟨heq, ?_, ?_⟩
  · intro c hc hdoc
    rw [heq]
    intro hmem
    have := (List.mem_filter.mp hmem).2
    simp [hdoc] at this
  · intro c hc hdoc
    rw [heq]
    exact List.mem_filter.mpr ⟨hc, by simpa using hdoc⟩

/-- Witness for C7: deleting document d1 from a two-document index removes
exactly d1's chunk and keeps d2's. -/
theorem delete_document_chunks_exact_witness :
    delete_document_chunks [ce1, ce2] "d1" = [ce2] ∧
    ce2 ∈ delete_document_chunks [ce1, ce2] "d1" ∧
    ce1 ∉ delete_document_chunks [ce1, ce2] "d1" := by
  have h := delete_document_chunks_exact [ce1, ce2] "d1" (by decide)
  refine ⟨?_, h.2.2 ce2 (by decide) (by decide), h.2.1 ce1 (by decide) (by decide)⟩
  rw [h.1]
  decide

/-! ### Document ingestion (C6) -/

/-- The chunk identifiers written at ingestion are exactly
`document_id ++ "_chunk_" ++ i` for chunk indices `0..n-1`. -/
theorem chunk_entries_ids (document : Document) (chunks : List String) :
    (chunk_entries document chunks).map ChunkEntry.id =
      (List.range chunks.length).map
        (fun i => document.id ++ "_chunk_" ++ toString i) := by
  rw [chunk_entries, List.map_map, ← List.enum_map_fst chunks, List.map_map]
  rfl

/-- C6: ingestion is all-or-nothing. When extraction yields no usable text
or splitting yields zero chunks, the upload fails, writes nothing to the
vector index and never sets the document's `chunk_count`; on success it
returns exactly the written chunks, stored under ids
`document_id ++ "_chunk_" ++ i`. -/
theorem process_document_all_or_nothing (split : String → List String)
    (pages : List String) (document : Document) (index : List ChunkEntry) :
    (is_blank (pages_text pages) = true ∨ split (pages_text pages) = [] →
      ∃ e, upload_process split pages document index = (document, index, some e)) ∧
    (∀ d idx, upload_process split pages document index = (d, idx, none) →
      d = { document with chunk_count := (split (pages_text pages)).length } ∧
      idx = index ++ chunk_entries document (split (pages_text pages)) ∧
      (chunk_entries document (split (pages_text pages))).map ChunkEntry.id =
        (List.range (split (pages_text pages)).length).map
          (fun i => document.id ++ "_chunk_" ++ toString i)) := by
  constructor
  · intro h
    by_cases h1 : is_blank (pages_text pages) = true
    · exact ⟨"No text could be extracted from PDF",
        by simp [upload_process, process_document, extract_text_from_pdf, h1]⟩
    · have h2 : split (pages_text pages) = [] := h.resolve_left h1
      exact ⟨"No chunks created from document",
        by simp [upload_process, process_document, extract_text_from_pdf, h1, h2]⟩
  · intro d idx heq
    by_cases h1 : is_blank (pages_text pages) = true
    · simp [upload_process, process_document, extract_text_from_pdf, h1] at heq
    · by_cases h2 : split (pages_text pages) = []
      · simp [upload_process, process_document, extract_text_from_pdf, h1, h2] at heq
      · simp [upload_process, process_document, extract_text_from_pdf, h1, h2] at heq
        exact ⟨heq.1.symm, heq.2.symm, chunk_entries_ids document _⟩

/-- Witness for C6: a PDF extracting to an empty page fails with no index
write and the document untouched, while a one-page document ingested with a
single-chunk splitter stores its chunk under `doc1_chunk_0`. -/
theorem process_document_all_or_nothing_witness :
    (∃ e, upload_process split_whole [""] exDoc [] = (exDoc, [], some e)) ∧
    (chunk_entries exDoc (split_whole (pages_text ["hello"]))).map ChunkEntry.id =
      (List.range (split_whole (pages_text ["hello"])).length).map
        (fun i => exDoc.id ++ "_chunk_" ++ toString i) := by
  constructor
  · exact (process_document_all_or_nothing split_whole [""] exDoc []).1
      (Or.inl (by decide))
  · exact ((process_document_all_or_nothing split_whole ["hello"] exDoc []).2
      ({ exDoc with chunk_count := 1 })
      (chunk_entries exDoc [pages_text ["hello"]]) (by decide)).2.2

/-! ### Response generation (C8) -/

/-- With only known roles in the history (the database check constraint
allows user, assistant and system), `format_messages_for_llm` sends every
history message, in order, under its own role. -/
theorem format_messages_known_roles (messages : List Message) (sp : Option String)
    (h : ∀ m ∈ messages, m.role = "user" ∨ m.role = "assistant" ∨ m.role = "system") :
    format_messages_for_llm messages sp =
      (match sp with
        | some s => [{ role := "system", content := s : PromptMessage }]
        | none => ([] : List PromptMessage)) ++
      messages.map (fun m => { role := m.role, content := m.content }) := by
  unfold format_messages_for_llm
  congr 1
  induction messages with
  | nil => rfl
  | cons m rest ih =>
    rw [List.filterMap_cons, List.map_cons]
    have hm := h m (List.mem_cons_self ..)
    have hrest : ∀ x ∈ rest, x.role = "user" ∨ x.role = "assistant" ∨ x.role = "system" :=
      fun x hx => h x (List.mem_cons_of_mem _ hx)
    rcases hm with hr | hr | hr <;> simp [hr, ih hrest]

/-- C8: `generate_response` reports `input_tokens` as the sum of the token
estimates of the budget-constrained history it actually sends (the system
instruction excluded), `output_tokens` as the estimate of the model's
returned text, and `total_tokens` as their sum; the stricter documents-only
instruction is selected exactly when non-empty grounding text is supplied
(per §4.5 an absent grounding text is the empty one), else the default
direct-answer instruction. -/
theorem generate_response_spec (messages : List Message) (rag : Option String)
    (llm_text : String) :
    (generate_response messages rag none llm_text).input_tokens =
      sum_tokens (get_context_window messages max_context_tokens) ∧
    (generate_response messages rag none llm_text).output_tokens = count_tokens llm_text ∧
    (generate_response messages rag none llm_text).total_tokens =
      (generate_response messages rag none llm_text).input_tokens +
        (generate_response messages rag none llm_text).output_tokens ∧
    ((∀ m ∈ messages, m.role = "user" ∨ m.role = "assistant" ∨ m.role = "system") →
      (generate_response messages rag none llm_text).prompt =
        { role := "system", content := chosen_system_prompt rag none } ::
          (get_context_window messages max_context_tokens).map
            (fun m => { role := m.role, content := m.content })) ∧
    (∀ s, rag = some s → s ≠ "" →
      chosen_system_prompt rag none = grounded_system_prompt s) ∧
    (rag = none ∨ rag = some "" → chosen_system_prompt rag none = default_system_prompt) := by
  refine ⟨rfl, rfl, rfl, ?_, ?_, ?_⟩
  · intro h
    have hsub : ∀ m ∈ get_context_window messages max_context_tokens,
        m.role = "user" ∨ m.role = "assistant" ∨ m.role = "system" :=
      fun m hm => h m ((get_context_window_suffix messages max_context_tokens).subset hm)
    show format_messages_for_llm (get_context_window messages max_context_tokens)
        (some (chosen_system_prompt rag none)) = _
    rw [format_messages_known_roles _ _ hsub]
    rfl
  · intro s hs hne
    subst hs
    simp [chosen_system_prompt, hne]
  · intro h
    rcases h with h | h <;> subst h <;> simp [chosen_system_prompt]

/-- Witness for C8 at a concrete call: a one-message history with grounding
text "ctx" and model output of eight characters. -/
theorem generate_response_spec_witness :
    (generate_response [exMsg] (some "ctx") none "12345678").output_tokens = 2 ∧
    (generate_response [exMsg] (some "ctx") none "12345678").total_tokens =
      (generate_response [exMsg] (some "ctx") none "12345678").input_tokens +
        (generate_response [exMsg] (some "ctx") none "12345678").output_tokens ∧
    chosen_system_prompt (some "ctx") none = grounded_system_prompt "ctx" ∧
    (generate_response [exMsg] (some "ctx") none "12345678").prompt =
      { role := "system", content := chosen_system_prompt (some "ctx") none } ::
        (get_context_window [exMsg] max_context_tokens).map
          (fun m => { role := m.role, content := m.content }) := by
  have h := generate_response_spec [exMsg] (some "ctx") "12345678"
  refine ⟨?_, h.2.2.1, h.2.2.2.2.1 "ctx" rfl (by decide), h.2.2.2.1 (by decide)⟩
  rw [h.2.1]
  decide

/-! ### Conversation turns (C3, C4, C5, C9) -/

/-- `get_next_sequence_number` returns one more than the conversation's
maximum sequence number, or 0 when the conversation has no messages. -/
theorem get_next_sequence_number_spec (st : DBState) (cid : String) :
    get_next_sequence_number st cid =
      (if st.messages.filter (fun m => m.conversation_id == cid) = [] then 0
       else ((st.messages.filter (fun m => m.conversation_id == cid)).map
          Message.sequence_number).foldl Nat.max 0 + 1) := by
  unfold get_next_sequence_number
  by_cases h : st.messages.filter (fun m => m.conversation_id == cid) = []
  · rw [if_pos h, h]
    rfl
  · rw [if_neg h]
    obtain ⟨a, as, he⟩ := List.exists_cons_of_ne_nil h
    rw [he, List.map_cons, List.max?_cons', List.foldl_cons]
    have hz : Nat.max 0 a.sequence_number = a.sequence_number :=
      Nat.max_eq_right (Nat.zero_le _)
    rw [hz]

/-- Updating the one conversation row matching an id keeps it findable: the
lookup afterwards yields the updated row. -/
theorem find?_map_update (l : List Conversation) (cid : String) (c2 : Conversation)
    (hc2 : (c2.id == cid) = true) :
    (∃ c, l.find? (fun x => x.id == cid) = some c) →
    (l.map (fun x => if x.id == cid then c2 else x)).find? (fun x => x.id == cid) =
      some c2 := by
  induction l with
  | nil =>
    intro ⟨c, hc⟩
    simp at hc
  | cons a l ih =>
    intro ⟨c, hc⟩
    by_cases ha : (a.id == cid) = true
    · rw [List.map_cons, if_pos ha]
      exact List.find?_cons_of_pos _ hc2
    · rw [List.map_cons, if_neg ha]
      have hstep : List.find? (fun x => x.id == cid)
          (a :: l.map (fun x => if x.id == cid then c2 else x)) =
          List.find? (fun x => x.id == cid)
            (l.map (fun x => if x.id == cid then c2 else x)) :=
        List.find?_cons_of_neg _ ha
      rw [hstep]
      have hskip : List.find? (fun x => x.id == cid) (a :: l) =
          List.find? (fun x => x.id == cid) l :=
        List.find?_cons_of_neg _ ha
      rw [hskip] at hc
      exact ih ⟨c, hc⟩

/-- C3: in every turn the user message gets sequence number one greater than
the conversation's current maximum (0 when no messages exist) and the
assistant message gets the user's number plus one. -/
theorem turn_sequence_numbers (st : DBState) (env : TurnEnv)
    (conversation_id content : String) (conv : Conversation)
    (h : get_conversation st conversation_id = some conv) :
    ∃ st2 res, add_message_and_get_response st env conversation_id content =
        Except.ok (st2, res) ∧
      res.user_message.sequence_number =
        (if st.messages.filter (fun m => m.conversation_id == conversation_id) = [] then 0
         else ((st.messages.filter (fun m => m.conversation_id == conversation_id)).map
            Message.sequence_number).foldl Nat.max 0 + 1) ∧
      res.assistant_message.sequence_number = res.user_message.sequence_number + 1 := by
  refine ⟨(run_turn st env conversation_id content conv).1,
    (run_turn st env conversation_id content conv).2, ?_, ?_, ?_⟩
  · rw [add_message_and_get_response, h]
  · show (run_turn st env conversation_id content conv).2.user_message.sequence_number = _
    rw [← get_next_sequence_number_spec]
    rfl
  · rfl

/-- Witness for C3: on an empty conversation the user message gets
sequence_number 0 and the assistant message gets 1. -/
theorem turn_sequence_numbers_witness :
    ∃ st2 res, add_message_and_get_response st0 env0 "c1" "Hello" =
        Except.ok (st2, res) ∧
      res.user_message.sequence_number = 0 ∧
      res.assistant_message.sequence_number = 1 := by
  obtain ⟨st2, res, heq, hu, ha⟩ :=
    turn_sequence_numbers st0 env0 "c1" "Hello" conv0 (by decide)
  have hu0 : res.user_message.sequence_number = 0 := by simpa [st0] using hu
  exact ⟨st2, res, heq, hu0, by rw [ha, hu0]⟩

/-- C4: retrieval runs exactly when the conversation is grounded with a
non-empty document set, and the assistant message carries chunk metadata
(count and similarity scores) exactly when retrieval ran and returned at
least one chunk; a non-grounded mode never invokes retrieval. -/
theorem turn_retrieval_gating (st : DBState) (env : TurnEnv)
    (conversation_id content : String) (conv : Conversation)
    (h : get_conversation st conversation_id = some conv) :
    ∃ st2 res, add_message_and_get_response st env conversation_id content =
        Except.ok (st2, res) ∧
      (res.retrieval_invoked = true ↔ conv.mode = "grounded" ∧ conv.document_ids ≠ []) ∧
      (conv.mode ≠ "grounded" → res.retrieval_invoked = false) ∧
      (res.assistant_message.extra_data ≠ none ↔
        res.retrieval_invoked = true ∧ env.retrieved ≠ []) ∧
      (res.retrieval_invoked = true → env.retrieved ≠ [] →
        res.assistant_message.extra_data = some
          { rag_chunks_used := env.retrieved.length,
            rag_similarity_scores := env.retrieved.map RetrievedChunk.similarity_score }) := by
  refine ⟨(run_turn st env conversation_id content conv).1,
    (run_turn st env conversation_id content conv).2,
    by rw [add_message_and_get_response, h], ?_, ?_, ?_, ?_⟩
  · show (conv.mode == "grounded" && !conv.document_ids.isEmpty) = true ↔ _
    cases hd : conv.document_ids <;> simp [beq_iff_eq, hd]
  · intro hm
    show (conv.mode == "grounded" && !conv.document_ids.isEmpty) = false
    have : (conv.mode == "grounded") = false := by simpa using hm
    simp [this]
  · by_cases hi : (conv.mode == "grounded" && !conv.document_ids.isEmpty) = true
    · by_cases hr : env.retrieved = []
      · simp [run_turn, hi, hr]
      · simp [run_turn, hi, hr]
    · have hi2 : (conv.mode == "grounded" && !conv.document_ids.isEmpty) = false :=
        Bool.eq_false_iff.mpr hi
      simp [run_turn, hi2]
  · intro hinv hr
    have hi : (conv.mode == "grounded" && !conv.document_ids.isEmpty) = true := hinv
    simp [run_turn, hi, hr]

/-- Witness for C4: a grounded conversation with one document and one
retrieved chunk yields retrieval and metadata recording the chunk count and
its similarity score. -/
theorem turn_retrieval_gating_witness :
    ∃ st2 res, add_message_and_get_response st0 envR "c2" "ask" =
        Except.ok (st2, res) ∧
      res.retrieval_invoked = true ∧
      res.assistant_message.extra_data = some
        { rag_chunks_used := 1, rag_similarity_scores := [9/10] } := by
  obtain ⟨st2, res, heq, hiff, _, _, hmeta⟩ :=
    turn_retrieval_gating st0 envR "c2" "ask" convG (by decide)
  have hinv : res.retrieval_invoked = true := hiff.mpr ⟨by decide, by decide⟩
  refine ⟨st2, res, heq, hinv, ?_⟩
  rw [hmeta hinv (by simp [envR])]
  simp [envR, rc0]

/-- C5: a turn against a non-existent conversation fails immediately with
"Conversation not found"; the operation returns no successor state, so no
message is created and no conversation is modified. -/
theorem turn_conversation_not_found (st : DBState) (env : TurnEnv)
    (conversation_id content : String)
    (h : get_conversation st conversation_id = none) :
    add_message_and_get_response st env conversation_id content =
      Except.error "Conversation not found" := by
  rw [add_message_and_get_response, h]

/-- Witness for C5 at a concrete missing id. -/
theorem turn_conversation_not_found_witness :
    add_message_and_get_response st0 env0 "missing" "Hello" =
      Except.error "Conversation not found" :=
  turn_conversation_not_found st0 env0 "missing" "Hello" (by decide)

/-- C9: a successful turn adds exactly the user message's token estimate
plus the assistant's output token estimate to the conversation's
total_tokens, and sets the conversation's last-modified timestamp to the
user message's creation time. -/
theorem turn_totals_and_timestamp (st : DBState) (env : TurnEnv)
    (conversation_id content : String) (conv : Conversation)
    (h : get_conversation st conversation_id = some conv) :
    ∃ st2 res, add_message_and_get_response st env conversation_id content =
        Except.ok (st2, res) ∧
      get_conversation st2 conversation_id = some res.conversation ∧
      res.conversation.total_tokens =
        conv.total_tokens + count_tokens content + count_tokens env.llm_text ∧
      res.conversation.updated_at = res.user_message.created_at := by
  refine ⟨(run_turn st env conversation_id content conv).1,
    (run_turn st env conversation_id content conv).2,
    by rw [add_message_and_get_response, h], ?_, rfl, rfl⟩
  have hfind : st.conversations.find? (fun c => c.id == conversation_id) = some conv := h
  have hp : (conv.id == conversation_id) = true := by
    simpa using List.find?_some hfind
  exact find?_map_update st.conversations conversation_id
    ((run_turn st env conversation_id content conv).2.conversation) hp ⟨conv, hfind⟩

/-- Witness for C9: a concrete turn on an empty open-chat conversation. -/
theorem turn_totals_and_timestamp_witness :
    ∃ st2 res, add_message_and_get_response st0 env0 "c1" "Hello you!" =
        Except.ok (st2, res) ∧
      res.conversation.total_tokens = 4 ∧
      res.conversation.updated_at = res.user_message.created_at := by
  obtain ⟨st2, res, heq, _, htot, hupd⟩ :=
    turn_totals_and_timestamp st0 env0 "c1" "Hello you!" conv0 (by decide)
  refine ⟨st2, res, heq, ?_, hupd⟩
  rw [htot]
  decide
